import Mathlib

/-!
Verification development for the band-music-helper backend.

The definitions below are a shallow embedding of the pipeline orchestration
core of the repository: the job registry (`src/services/job_service.py`), the
two pipeline orchestrators (`src/pipeline/omr_pipeline.py`,
`src/pipeline/amt_pipeline.py`), the stage processors
(`src/omr/processor.py`, `src/amt/processor.py`,
`src/processing/synthesizer.py`) and the download endpoints
(`src/api/routes/omr.py`, `src/api/routes/amt.py`).

External effects are made explicit: the outcome of each wrapped external tool
is a parameter of the embedded function, filesystem facts (file existence,
whether a deletion succeeds) are boolean parameters, and Python exceptions are
modelled with `Except`.
-/

namespace BandMusic

/-- Job status enumeration (`JobStatus` in `src/services/job_service.py`). -/
inductive JobStatus where
  | uploaded
  | processing
  | completed
  | failed
deriving DecidableEq, Repr, BEq

/-- String value of a status member (`JobStatus` is a `str` enum: `.value`). -/
def JobStatus.value : JobStatus → String
  | .uploaded => "uploaded"
  | .processing => "processing"
  | .completed => "completed"
  | .failed => "failed"

/-- Job type enumeration (`JobType` in `src/services/job_service.py`). -/
inductive JobType where
  | omr
  | amt
deriving DecidableEq, Repr, BEq

/-- Runtime value held by the `Job.status` attribute.  The dataclass declares
the field as `JobStatus`, but Python does not enforce the annotation: the
pipeline status callback (`routes/omr.py`, `routes/amt.py`) writes plain
strings such as `"processing"` through `JobService.update_job`, while
`create_job` and `update_status` write `JobStatus` enum members.  Because
`JobStatus` mixes in `str`, equality between a plain string and an enum member
compares by value, but attribute access `.value` on a plain string raises
`AttributeError`. -/
inductive StatusVal where
  | enum (s : JobStatus)
  | str (s : String)
deriving DecidableEq, Repr, BEq

/-- Python `==` between a `Job.status` value and a `JobStatus` member: an enum
member compares as itself, a plain string compares by the member's value
(the `str` mixin). -/
def StatusVal.eqStatus : StatusVal → JobStatus → Bool
  | .enum a, b => a == b
  | .str a, b => a == b.value

/-- Python attribute access `status.value`: succeeds on an enum member and
raises `AttributeError` on a plain string. -/
def StatusVal.valueAttr : StatusVal → Except String String
  | .enum a => .ok a.value
  | .str _ => .error "AttributeError: str object has no attribute value"

/-- The `Job` dataclass of `src/services/job_service.py`.  Timestamps are
abstracted to natural numbers supplied by the caller in place of
`datetime.utcnow()`. -/
structure Job where
  job_id : String
  type : JobType
  status : StatusVal
  filename : String
  upload_path : String
  output_path : Option String
  error : Option String
  step : Option String
  progress : Int
  created_at : Nat
  updated_at : Nat
deriving DecidableEq, Repr, BEq

/-- The in-memory job table `JobService._jobs` (a Python dict keyed by job
id), modelled as an association list in insertion order. -/
abbrev Table := List (String × Job)

/-- Dict lookup `self._jobs.get(job_id)`. -/
def lookup : Table → String → Option Job
  | [], _ => none
  | (k, j) :: rest, id => if k = id then some j else lookup rest id

/-- Replace the value stored under an existing key, leaving every other entry
in place. -/
def setEntry : Table → String → Job → Table
  | [], _, _ => []
  | (k, old) :: rest, id, j =>
      if k = id then (k, j) :: rest else (k, old) :: setEntry rest id j

/-- Dict assignment `self._jobs[job_id] = job`: overwrite an existing key or
append a fresh one. -/
def insertEntry (tbl : Table) (id : String) (j : Job) : Table :=
  if (lookup tbl id).isSome then setEntry tbl id j else tbl ++ [(id, j)]

/-- Fields optionally carried by one `JobService.update_job(**kwargs)` call,
restricted to the keyword arguments the repository actually passes (those
built by `update_status` and by the pipeline status callbacks).  A `none`
field means the keyword was absent, so the attribute is left untouched. -/
structure JobUpdate where
  status : Option StatusVal
  step : Option String
  progress : Option Int
  error : Option String
  output_path : Option String
deriving Repr

/-- Effect of the `setattr` loop of `update_job` on one job, followed by the
unconditional `job.updated_at = datetime.utcnow()`. -/
def applyUpdate (job : Job) (u : JobUpdate) (now : Nat) : Job :=
  { job with
    status := match u.status with | some s => s | none => job.status
    step := match u.step with | some s => some s | none => job.step
    progress := match u.progress with | some p => p | none => job.progress
    error := match u.error with | some e => some e | none => job.error
    output_path := match u.output_path with | some p => some p | none => job.output_path
    updated_at := now }

/-- `JobService.create_job`: store a fresh record with status `UPLOADED` and
progress 0, and return it. -/
def create_job (tbl : Table) (job_id : String) (job_type : JobType)
    (filename upload_path : String) (now : Nat) : Table × Job :=
  let job : Job :=
    { job_id := job_id
      type := job_type
      status := .enum .uploaded
      filename := filename
      upload_path := upload_path
      output_path := none
      error := none
      step := none
      progress := 0
      created_at := now
      updated_at := now }
  (insertEntry tbl job_id job, job)

/-- `JobService.get_job`. -/
def get_job (tbl : Table) (job_id : String) : Option Job :=
  lookup tbl job_id

/-- `JobService.update_job`: if the id is present, set each supplied attribute
and bump `updated_at`; if absent, do nothing and return `None`. -/
def update_job (tbl : Table) (job_id : String) (u : JobUpdate) (now : Nat) :
    Table × Option Job :=
  match lookup tbl job_id with
  | none => (tbl, none)
  | some job =>
      let j := applyUpdate job u now
      (setEntry tbl job_id j, some j)

/-- `JobService.update_status`: build the kwargs dict (`status` always, the
other keys only when the argument is not `None`) and delegate to
`update_job`.  The `status` argument is a `JobStatus` enum member here, as at
every call site of `update_status` in the repository. -/
def update_status (tbl : Table) (job_id : String) (status : JobStatus)
    (step : Option String) (progress : Option Int) (error : Option String)
    (output_path : Option String) (now : Nat) : Table × Option Job :=
  update_job tbl job_id
    { status := some (.enum status)
      step := step
      progress := progress
      error := error
      output_path := output_path } now

/-- `JobService.mark_processing`. -/
def mark_processing (tbl : Table) (job_id : String) (step : String)
    (progress : Int) (now : Nat) : Table × Option Job :=
  update_status tbl job_id .processing (some step) (some progress) none none now

/-- `JobService.mark_completed`: status `COMPLETED`, progress 100, output
path. -/
def mark_completed (tbl : Table) (job_id : String) (output_path : String)
    (now : Nat) : Table × Option Job :=
  update_status tbl job_id .completed none (some 100) none (some output_path) now

/-- `JobService.mark_failed`: status `FAILED` and the error message. -/
def mark_failed (tbl : Table) (job_id : String) (error : String) (now : Nat) :
    Table × Option Job :=
  update_status tbl job_id .failed none none (some error) none now

/-! ## Pipeline orchestrators

`OMRPipeline.process` and `AMTPipeline.process` are modelled as trace
producers: each run yields the ordered list of observable events (status
callback invocations, stage invocations, cleanup calls) together with the
Python result (the returned artifact path, or the re-raised exception
message).  Stage outcomes are parameters: `Except.ok` is the artifact path a
stage returns, `Except.error` the message of the exception it raises.  The
callbacks are modelled exactly as the code issues them, in particular the
`status` values are the plain strings from the callback dicts, and the
intermediate-artifact `cleanup` calls are modelled as returning normally (the
success path of `OMRProcessor.cleanup` / `MusicConverter.cleanup`). -/

/-- Payload of one `status_callback(job_id, status_data)` invocation: the
fields of the `status_data` dict. -/
structure StatusUpdate where
  status : StatusVal
  step : Option String
  progress : Option Int
  error : Option String
deriving DecidableEq, Repr, BEq

/-- Observable event of a pipeline run. -/
inductive Event where
  | callback (job_id : String) (u : StatusUpdate)
  | stage (name : String)
  | cleanup (path : String)
deriving DecidableEq, Repr, BEq

/-- Callback payload for a `processing` milestone, as built by the pipelines:
`{"status": "processing", "step": step, "progress": progress}`. -/
def processingUpdate (step : String) (progress : Int) : StatusUpdate :=
  { status := .str "processing", step := some step, progress := some progress,
    error := none }

/-- Callback payload `{"status": "completed", "progress": 100}`. -/
def completedUpdate : StatusUpdate :=
  { status := .str "completed", step := none, progress := some 100,
    error := none }

/-- Callback payload `{"status": "failed", "error": str(e)}`. -/
def failedUpdate (error : String) : StatusUpdate :=
  { status := .str "failed", step := none, progress := none,
    error := some error }

namespace OMRPipeline

/-- `OMRPipeline.process` (src/pipeline/omr_pipeline.py) run with a status
callback, for given outcomes of the three stages (`omr.process_image`,
`converter.musicxml_to_midi`, `synthesizer.midi_to_audio`).  Returns the
event trace and the result handed back to the caller. -/
def process (job_id : String) (s1 : Except String String)
    (s2 s3 : String → Except String String) : List Event × Except String String :=
  let t1 := [Event.callback job_id (processingUpdate "omr" 25), Event.stage "omr"]
  match s1 with
  | .error e => (t1 ++ [Event.callback job_id (failedUpdate e)], .error e)
  | .ok musicxml_path =>
    let t2 := t1 ++ [Event.callback job_id (processingUpdate "conversion" 50),
                     Event.stage "conversion"]
    match s2 musicxml_path with
    | .error e => (t2 ++ [Event.callback job_id (failedUpdate e)], .error e)
    | .ok midi_path =>
      let t3 := t2 ++ [Event.callback job_id (processingUpdate "synthesis" 75),
                       Event.stage "synthesis"]
      match s3 midi_path with
      | .error e => (t3 ++ [Event.callback job_id (failedUpdate e)], .error e)
      | .ok audio_path =>
        (t3 ++ [Event.cleanup musicxml_path, Event.cleanup midi_path,
                Event.callback job_id completedUpdate],
         .ok audio_path)

end OMRPipeline

namespace AMTPipeline

/-- `AMTPipeline.process` (src/pipeline/amt_pipeline.py) run with a status
callback, for given outcomes of the two stages (`amt.process_audio`,
`renderer.midi_to_pdf`). -/
def process (job_id : String) (s1 : Except String String)
    (s2 : String → Except String String) : List Event × Except String String :=
  let t1 := [Event.callback job_id (processingUpdate "transcription" 25),
             Event.stage "transcription"]
  match s1 with
  | .error e => (t1 ++ [Event.callback job_id (failedUpdate e)], .error e)
  | .ok midi_path =>
    let t2 := t1 ++ [Event.callback job_id (processingUpdate "rendering" 75),
                     Event.stage "rendering"]
    match s2 midi_path with
    | .error e => (t2 ++ [Event.callback job_id (failedUpdate e)], .error e)
    | .ok pdf_path =>
      (t2 ++ [Event.cleanup midi_path, Event.callback job_id completedUpdate],
       .ok pdf_path)

end AMTPipeline

/-! ## Stage processors -/

/-- Allowed input extensions for the OMR processor
(`settings.omr_allowed_extensions`). -/
def omr_allowed_extensions : List String := [".png", ".jpg", ".jpeg", ".pdf"]

/-- Allowed input extensions for the AMT processor
(`settings.amt_allowed_extensions`). -/
def amt_allowed_extensions : List String := [".mp3", ".wav", ".ogg", ".m4a"]

/-- Python substring membership `pat in s`. -/
def containsSub (s pat : String) : Bool :=
  (s.splitOn pat).length != 1

/-- ASCII lowercasing of one character, as Python `str.lower` acts on the
instrument names in play here. -/
def lowerChar (c : Char) : Char :=
  if 'A' ≤ c ∧ c ≤ 'Z' then Char.ofNat (c.toNat + 32) else c

/-- Python `instrument.lower()` (ASCII range). -/
def pyLower (s : String) : String :=
  String.mk (s.data.map lowerChar)

/-- Boolean test for the `Except.error` constructor. -/
def isErr {ε α : Type} : Except ε α → Bool
  | .error _ => true
  | .ok _ => false

namespace OMRProcessor

/-- How the wrapped external OMR tool behaves on one invocation, covering the
branches of `OMRProcessor._run_oemer`: the `oemer` import fails, `extract`
raises `AssertionError` / `ValueError` / some other exception, or `extract`
returns, with or without leaving an output file on disk. -/
inductive OemerOutcome where
  | unavailable
  | assertionError (msg : String)
  | valueError (msg : String)
  | crash (msg : String)
  | ran (producedOutput : Bool)
deriving DecidableEq, Repr

/-- Guidance message raised when Oemer throws an `AssertionError`
(abbreviated to its first line; the source continues with bullet-point
advice). -/
def assertionGuidance : String :=
  "OMR processing failed. This could be due to: sheet music complexity, image quality problems, multiple pages, or non-standard notation layout."

/-- Guidance message raised when Oemer fails with an empty `max()` iterable
(abbreviated; the source lists possible causes and advice). -/
def stafflineGuidance : String :=
  "No musical stafflines detected in the image."

/-- `OMRProcessor._run_oemer`: dispatch on the tool outcome.  On an
`ImportError` or a raised exception a `RuntimeError` with a diagnostic
message propagates; when the tool runs but produces no output file, a mock
MusicXML is written at the expected output path and that path is returned as
a success. -/
def run_oemer (outcome : OemerOutcome) (image_stem : String) :
    Except String String :=
  let output_path := "outputs/" ++ image_stem ++ ".musicxml"
  match outcome with
  | .unavailable =>
      .error "Oemer library not available. Please ensure it is installed correctly."
  | .assertionError _ => .error assertionGuidance
  | .valueError msg =>
      if containsSub msg "max() iterable argument is empty" || containsSub msg "max()" then
        .error stafflineGuidance
      else
        .error ("OMR processing failed: " ++ msg ++ ". Please check the image quality.")
  | .crash msg =>
      .error ("OMR processing failed: " ++ msg ++ ". Please check that the image contains valid sheet music.")
  | .ran _ => .ok output_path

/-- Behaviour of the PDF pre-transform `OMRProcessor._pdf_to_image`. -/
inductive PdfConvOutcome where
  | pdf2imageMissing
  | noImages
  | fail (msg : String)
  | converted
deriving DecidableEq, Repr

/-- `OMRProcessor._pdf_to_image`: convert the first page of a PDF into
`{stem}_converted.png`, or raise a `RuntimeError`. -/
def pdf_to_image (outcome : PdfConvOutcome) (pdf_stem : String) :
    Except String String :=
  match outcome with
  | .pdf2imageMissing => .error "PDF conversion requires pdf2image library"
  | .noImages => .error "PDF conversion failed: Failed to convert PDF to image"
  | .fail msg => .error ("PDF conversion failed: " ++ msg)
  | .converted => .ok (pdf_stem ++ "_converted")

/-- `OMRProcessor.process_image`: validate existence and extension, run the
PDF pre-transform when needed, invoke the tool, and wrap any exception from
the `try` block into `RuntimeError("OMR processing failed: ...")`. -/
def process_image (fileExists : Bool) (suffixLower stem : String)
    (pdfOutcome : PdfConvOutcome) (oemerOutcome : OemerOutcome) :
    Except String String :=
  if !fileExists then
    .error ("Input file not found: " ++ stem ++ suffixLower)
  else if !(omr_allowed_extensions.contains suffixLower) then
    .error ("Unsupported file format: " ++ suffixLower)
  else
    let inner : Except String String := do
      let image_stem ←
        if suffixLower == ".pdf" then pdf_to_image pdfOutcome stem
        else pure stem
      run_oemer oemerOutcome image_stem
    match inner with
    | .error e => .error ("OMR processing failed: " ++ e)
    | .ok p => .ok p

end OMRProcessor

namespace AMTProcessor

/-- How the wrapped Basic Pitch tool behaves on one invocation, covering the
branches of `AMTProcessor._run_basic_pitch`: the import fails, `predict`
returns usable MIDI data, `predict` returns no MIDI data, or `predict`
raises. -/
inductive BasicPitchOutcome where
  | unavailable
  | ok
  | noMidiData
  | crash (msg : String)
deriving DecidableEq, Repr

/-- `AMTProcessor._run_basic_pitch`: on success the transcribed MIDI path is
returned; on `ImportError` or on any exception from the `try` block
(including the internal `RuntimeError` raised when no MIDI data was
generated) a mock MIDI file is written at the same output path and returned
as a success.  Mock creation itself raises only when `mido` is missing. -/
def run_basic_pitch (outcome : BasicPitchOutcome) (midoAvailable : Bool)
    (audio_stem : String) : Except String String :=
  let output_path := "outputs/" ++ audio_stem ++ ".mid"
  let mock : Except String String :=
    if midoAvailable then .ok output_path
    else .error "Mock MIDI creation requires mido library"
  match outcome with
  | .ok => .ok output_path
  | .unavailable => mock
  | .noMidiData => mock
  | .crash _ => mock

/-- `AMTProcessor.process_audio`: validate existence and extension, run the
tool, and wrap any exception into `RuntimeError("AMT processing failed:
...")`. -/
def process_audio (fileExists : Bool) (suffixLower stem : String)
    (outcome : BasicPitchOutcome) (midoAvailable : Bool) :
    Except String String :=
  if !fileExists then
    .error ("Input file not found: " ++ stem ++ suffixLower)
  else if !(amt_allowed_extensions.contains suffixLower) then
    .error ("Unsupported file format: " ++ suffixLower)
  else
    match run_basic_pitch outcome midoAvailable stem with
    | .error e => .error ("AMT processing failed: " ++ e)
    | .ok p => .ok p

end AMTProcessor

namespace AudioSynthesizer

/-- General MIDI program numbers (`AudioSynthesizer.INSTRUMENTS` in
`src/processing/synthesizer.py`). -/
def INSTRUMENTS : List (String × Nat) :=
  [("piano", 0), ("trombone", 57), ("trumpet", 56)]

/-- Instrument validation at the top of `AudioSynthesizer.midi_to_audio`:
lowercase the selector and fall back to `"piano"` when the result is not a
key of `INSTRUMENTS`. -/
def resolve_instrument (instrument : String) : String :=
  let i := pyLower instrument
  if (INSTRUMENTS.lookup i).isSome then i else "piano"

/-- Program number applied by `_apply_instrument_change`
(`self.INSTRUMENTS[instrument]` after validation; the key is always present,
so the fallback value of `getD` is never used). -/
def instrument_program (instrument : String) : Nat :=
  (INSTRUMENTS.lookup (resolve_instrument instrument)).getD 0

end AudioSynthesizer

/-- A `cleanup(file_path)` call, the method duplicated verbatim on
`OMRProcessor`, `AMTProcessor`, `MusicConverter`, `AudioSynthesizer` and
`ScoreRenderer`:

  if settings.cleanup_files:
      if file_path.exists():
          file_path.unlink()

`cleanup_files` is the process-wide cleanup flag, `fileExists` the result of
the `exists()` check, and `unlinkOk` whether the operating system performs
the `unlink` (it raises `OSError`, e.g. `PermissionError`, otherwise; there
is no `try` around it).  The returned boolean records whether the file was
deleted. -/
def cleanup (cleanup_files fileExists unlinkOk : Bool) : Except String Bool :=
  if cleanup_files then
    if fileExists then
      if unlinkOk then .ok true
      else .error "OSError: unlink failed"
    else .ok false
  else .ok false

/-! ## Download endpoints -/

/-- Response produced by a download route handler when no exception escapes:
either an `HTTPException` (status code and detail) converted by FastAPI into
an error response, or a `FileResponse`. -/
inductive DownloadOutcome where
  | httpError (statusCode : Nat) (detail : String)
  | fileResponse (path : String) (mediaType : String) (filename : String)
deriving DecidableEq, Repr

/-- Stem of a filename (`Path(name).stem` for names with an ordinary
extension: everything before the final dot). -/
def pathStem (s : String) : String :=
  match s.splitOn "." with
  | [] => s
  | [_] => s
  | parts => String.intercalate "." parts.dropLast

/-- Shared body of `download_omr_result` and `download_amt_result`
(`src/api/routes/omr.py` and `src/api/routes/amt.py`, identical up to media
type and filename suffix).  `Except.error` models an exception other than
`HTTPException` escaping the handler (surfaced by FastAPI as a 500 response):
`job.status.value` on a plain-string status raises `AttributeError`, and
`Path(None)` on a completed job without an output path raises `TypeError`. -/
def downloadResult (job : Option Job) (outputExists : Bool)
    (mediaType filenameSuffix : String) : Except String DownloadOutcome :=
  match job with
  | none => .ok (.httpError 404 "Job not found")
  | some job =>
    if !(job.status.eqStatus .completed) then
      match job.status.valueAttr with
      | .error e => .error e
      | .ok v => .ok (.httpError 400 ("Job is not complete. Current status: " ++ v))
    else
      match job.output_path with
      | none => .error "TypeError: argument should be a str or os.PathLike object, not NoneType"
      | some p =>
        if !outputExists then .ok (.httpError 404 "Output file not found")
        else .ok (.fileResponse p mediaType (pathStem job.filename ++ filenameSuffix))

/-- `download_omr_result`: MP3 download for the image-to-audio pipeline. -/
def download_omr_result (job : Option Job) (outputExists : Bool) :
    Except String DownloadOutcome :=
  downloadResult job outputExists "audio/mpeg" ".mp3"

/-- `download_amt_result`: PDF download for the audio-to-document pipeline. -/
def download_amt_result (job : Option Job) (outputExists : Bool) :
    Except String DownloadOutcome :=
  downloadResult job outputExists "application/pdf" "_score.pdf"

/-! ## Registry operation sequences

Machinery to talk about a sequence of `JobService` operations applied to one
job id, used for the state-machine and field-invariant claims.  Timestamps do
not influence status, progress or the optional fields, so `runOps` fixes
`now = 0`. -/

/-- One registry operation targeting a fixed job id. -/
inductive RegOp where
  | create (ty : JobType) (filename upload_path : String)
  | markProcessing (step : String) (progress : Int)
  | markCompleted (output_path : String)
  | markFailed (error : String)
deriving Repr

/-- Apply one operation to the table. -/
def applyOp (tbl : Table) (id : String) : RegOp → Table
  | .create ty fn up => (create_job tbl id ty fn up 0).fst
  | .markProcessing st p => (mark_processing tbl id st p 0).fst
  | .markCompleted o => (mark_completed tbl id o 0).fst
  | .markFailed e => (mark_failed tbl id e 0).fst

/-- Run a sequence of operations. -/
def runOps (tbl : Table) (id : String) : List RegOp → Table
  | [] => tbl
  | op :: rest => runOps (applyOp tbl id op) id rest

/-- The job record observed after each operation of the sequence. -/
def jobTrace (tbl : Table) (id : String) : List RegOp → List (Option Job)
  | [] => []
  | op :: rest =>
      let t := applyOp tbl id op
      lookup t id :: jobTrace t id rest

/-- The status observed after each operation of the sequence. -/
def statusTrace (tbl : Table) (id : String) (ops : List RegOp) :
    List (Option StatusVal) :=
  (jobTrace tbl id ops).map (Option.map Job.status)

/-- The transition relation of the specified status state machine
`uploaded -> processing -> (completed | failed)`, with the processing
self-loop. -/
def allowedTransition : JobStatus → JobStatus → Bool
  | .uploaded, .processing => true
  | .processing, .processing => true
  | .processing, .completed => true
  | .processing, .failed => true
  | _, _ => false

/-- Field invariant of section 8 of the spec: `output_path` set iff
completed, `error` set iff failed. -/
def jobInvB (j : Job) : Bool :=
  (j.output_path.isSome == decide (j.status = .enum .completed)) &&
  (j.error.isSome == decide (j.status = .enum .failed))

/-- The `mark_processing` operations induced by a list of step names and
progress values. -/
def procOps (steps : List (String × Int)) : List RegOp :=
  steps.map (fun sp => RegOp.markProcessing sp.1 sp.2)

/-- State of a job in the middle of a lifecycle run: status `processing`, no
output path, no error yet. -/
def midRunB (j : Job) : Bool :=
  j.output_path.isNone && j.error.isNone && decide (j.status = .enum .processing)

/-- The record stored by `create_job`. -/
def newJob (id : String) (ty : JobType) (fn up : String) (now : Nat) : Job :=
  { job_id := id
    type := ty
    status := .enum .uploaded
    filename := fn
    upload_path := up
    output_path := none
    error := none
    step := none
    progress := 0
    created_at := now
    updated_at := now }

/-- Terminal operation of a lifecycle run: `mark_failed` or
`mark_completed`. -/
def termOp : Bool → String → String → RegOp
  | true, _, e => .markFailed e
  | false, o, _ => .markCompleted o

/-- Terminal status of a lifecycle run. -/
def termStatus : Bool → JobStatus
  | true => .failed
  | false => .completed

/-- A job after `mark_failed`: only `status`, `error` and `updated_at`
rewritten. -/
def failedFrom (j : Job) (err : String) (now : Nat) : Job :=
  { j with status := .enum .failed, error := some err, updated_at := now }

/-- Value-level reading of a `Job.status` runtime value.  `JobStatus` mixes
in `str`, so a plain string stored in the field compares equal (by Python
`==`) to the enum member carrying that value; a string outside the
enumeration corresponds to no member. -/
def StatusVal.asStatus : StatusVal → Option JobStatus
  | .enum s => some s
  | .str s =>
      if s = "uploaded" then some .uploaded
      else if s = "processing" then some .processing
      else if s = "completed" then some .completed
      else if s = "failed" then some .failed
      else none

/-- The `status_callback` closure of `process_omr_job` / `process_amt_job`
(`src/api/routes/omr.py` line 28, `src/api/routes/amt.py` line 28): it feeds
the callback dict straight into `job_service.update_job(jid, **status_data)`.
Callback dicts never carry `output_path`; timestamps are abstracted to 0 as
in `runOps`. -/
def applyCallback (tbl : Table) (id : String) (u : StatusUpdate) : Table :=
  (update_job tbl id
    { status := some u.status, step := u.step, progress := u.progress,
      error := u.error, output_path := none } 0).fst

/-- The callback payloads a pipeline run hands to the status callback for
the given job id, in order. -/
def jobCallbackOps (id : String) (events : List Event) : List StatusUpdate :=
  events.filterMap (fun ev =>
    match ev with
    | .callback jid u => if jid = id then some u else none
    | _ => none)

/-- Status observed after each successive callback application. -/
def cbStatusTrace (tbl : Table) (id : String) :
    List StatusUpdate → List (Option StatusVal)
  | [] => []
  | u :: rest =>
      let t := applyCallback tbl id u
      (lookup t id).map Job.status :: cbStatusTrace t id rest

/-- The final registry write of `process_omr_job` / `process_amt_job`:
`mark_completed` with the returned path when the pipeline returns,
`mark_failed` with the message when it raises. -/
def terminalMark (tbl : Table) (id : String) : Except String String → Table
  | .ok p => (mark_completed tbl id p 0).fst
  | .error e => (mark_failed tbl id e 0).fst

/-- Terminal status recorded for a pipeline result. -/
def terminalOf : Except String String → JobStatus
  | .ok _ => .completed
  | .error _ => .failed

/-- The status values observed after each registry write of one orchestrated
job run as the routes perform it: `create_job`, then one `update_job` per
pipeline status callback, then the terminal `mark_completed` / `mark_failed`.
Each observation is read at the value level through `StatusVal.asStatus`. -/
def runStatusValues (tbl : Table) (id : String) (ty : JobType) (fn up : String)
    (r : List Event × Except String String) : List (Option JobStatus) :=
  let t0 := (create_job tbl id ty fn up 0).fst
  let cbs := jobCallbackOps id r.fst
  let t1 := cbs.foldl (fun t u => applyCallback t id u) t0
  (((lookup t0 id).map Job.status :: cbStatusTrace t0 id cbs) ++
      [(lookup (terminalMark t1 id r.snd) id).map Job.status]).map
    (fun o => o.bind StatusVal.asStatus)

/-- One step of the observed status-value sequence respects the state
machine when it is an edge of the machine or leaves the value unchanged (a
registry write that does not change the status value). -/
def machineStep (a b : JobStatus) : Bool :=
  allowedTransition a b || a == b

/-- Progress carried by a `processing` status callback; `none` for any other
event. -/
def progressOf (ev : Event) : Option Int :=
  match ev with
  | .callback _ u => if u.status = .str "processing" then u.progress else none
  | _ => none

/-- The progress values of the `processing` status callbacks of a trace, in
order. -/
def processingProgresses (tr : List Event) : List Int :=
  tr.filterMap progressOf

/-- Every `completed` status callback of the trace carries progress 100. -/
def completedHas100 (tr : List Event) : Bool :=
  tr.all (fun ev =>
    match ev with
    | .callback _ u =>
        if u.status = .str "completed" then u.progress == some (100 : Int)
        else true
    | _ => true)

/-- Test for a `failed` status callback. -/
def isFailedCallback (ev : Event) : Bool :=
  match ev with
  | .callback _ u => decide (u.status = .str "failed")
  | _ => false

/-- Number of `failed` status callbacks in a trace. -/
def countFailed : List Event → Nat
  | [] => 0
  | ev :: rest => (if isFailedCallback ev then 1 else 0) + countFailed rest


/-! ## Table lemmas -/

theorem lookup_setEntry_self {tbl : Table} {id : String} {j0 j : Job}
    (h : lookup tbl id = some j0) : lookup (setEntry tbl id j) id = some j := by
  induction tbl with
  | nil => simp [lookup] at h
  | cons hd rest ih =>
      obtain ⟨k, old⟩ := hd
      by_cases hk : k = id
      · simp [setEntry, lookup, hk]
      · simp [lookup, hk] at h
        simp [setEntry, lookup, hk, ih h]

theorem lookup_setEntry_ne {tbl : Table} {id k : String} {j : Job}
    (h : k ≠ id) : lookup (setEntry tbl id j) k = lookup tbl k := by
  induction tbl with
  | nil => simp [setEntry]
  | cons hd rest ih =>
      obtain ⟨k', old⟩ := hd
      by_cases hk : k' = id
      · subst hk
        have hne : k' ≠ k := fun hkk => h hkk.symm
        simp [setEntry, lookup, hne]
      · simp only [setEntry, if_neg hk]
        by_cases hkk : k' = k
        · simp [lookup, hkk]
        · simp [lookup, hkk, ih]

theorem lookup_append_single_self {tbl : Table} {id : String} {j : Job}
    (h : lookup tbl id = none) : lookup (tbl ++ [(id, j)]) id = some j := by
  induction tbl with
  | nil => simp [lookup]
  | cons hd rest ih =>
      obtain ⟨k, old⟩ := hd
      by_cases hk : k = id
      · simp [lookup, hk] at h
      · simp [lookup, hk] at h ⊢
        exact ih h

theorem lookup_insertEntry_self {tbl : Table} {id : String} {j : Job} :
    lookup (insertEntry tbl id j) id = some j := by
  unfold insertEntry
  cases h : lookup tbl id with
  | none => simp [h, lookup_append_single_self h]
  | some j0 => simp [h, lookup_setEntry_self h]

theorem update_job_of_lookup {tbl : Table} {id : String} {j : Job}
    {u : JobUpdate} {now : Nat} (h : lookup tbl id = some j) :
    update_job tbl id u now =
      (setEntry tbl id (applyUpdate j u now), some (applyUpdate j u now)) := by
  simp [update_job, h]

theorem lookup_update_job_self {tbl : Table} {id : String} {j : Job}
    {u : JobUpdate} {now : Nat} (h : lookup tbl id = some j) :
    lookup (update_job tbl id u now).fst id = some (applyUpdate j u now) := by
  rw [update_job_of_lookup h]
  exact lookup_setEntry_self h

theorem lookup_update_status_self {tbl : Table} {id : String} {j : Job}
    (s : JobStatus) (st : Option String) (p : Option Int) (e o : Option String)
    (now : Nat) (h : lookup tbl id = some j) :
    lookup (update_status tbl id s st p e o now).fst id =
      some (applyUpdate j
        { status := some (.enum s), step := st, progress := p, error := e,
          output_path := o } now) := by
  unfold update_status
  exact lookup_update_job_self h

/-! ## Lifecycle-run lemmas -/

theorem statusTrace_cons (tbl : Table) (id : String) (op : RegOp)
    (l : List RegOp) :
    statusTrace tbl id (op :: l) =
      (lookup (applyOp tbl id op) id).map Job.status ::
        statusTrace (applyOp tbl id op) id l := by
  simp [statusTrace, jobTrace]

theorem jobTrace_append (tbl : Table) (id : String) (l1 l2 : List RegOp) :
    jobTrace tbl id (l1 ++ l2) =
      jobTrace tbl id l1 ++ jobTrace (runOps tbl id l1) id l2 := by
  induction l1 generalizing tbl with
  | nil => simp [jobTrace, runOps]
  | cons op rest ih => simp [jobTrace, runOps, ih]

theorem statusTrace_append (tbl : Table) (id : String) (l1 l2 : List RegOp) :
    statusTrace tbl id (l1 ++ l2) =
      statusTrace tbl id l1 ++ statusTrace (runOps tbl id l1) id l2 := by
  simp [statusTrace, jobTrace_append]

/-- Running any block of `mark_processing` operations on a present job keeps
it present, does not touch `output_path` or `error`, and leaves the status
either untouched (empty block) or at `processing`. -/
theorem runOps_procOps_lookup {id : String} :
    ∀ (steps : List (String × Int)) (tbl : Table) (j : Job),
    lookup tbl id = some j →
    ∃ j', lookup (runOps tbl id (procOps steps)) id = some j' ∧
      j'.output_path = j.output_path ∧ j'.error = j.error ∧
      (j'.status = j.status ∨ j'.status = .enum .processing) := by
  intro steps
  induction steps with
  | nil =>
      intro tbl j h
      exact ⟨j, by simpa [procOps, runOps] using h, rfl, rfl, Or.inl rfl⟩
  | cons sp rest ih =>
      intro tbl j h
      have h1 :
          lookup (applyOp tbl id (RegOp.markProcessing sp.1 sp.2)) id =
            some (applyUpdate j
              { status := some (.enum .processing), step := some sp.1,
                progress := some sp.2, error := none, output_path := none } 0) := by
        simpa [applyOp, mark_processing] using
          (lookup_update_status_self .processing (some sp.1)
            (some sp.2) none none 0 h)
      obtain ⟨j', hj', hop, herr, hst⟩ := ih _ _ h1
      refine ⟨j', by simpa [procOps, runOps] using hj', ?_, ?_, ?_⟩
      · simpa [applyUpdate] using hop
      · simpa [applyUpdate] using herr
      · rcases hst with hst | hst
        · right
          rw [hst]
          simp [applyUpdate]
        · exact Or.inr hst

/-- Status trace of a block of `mark_processing` operations on a present job:
every observed status is the `PROCESSING` enum member. -/
theorem statusTrace_procOps {id : String} :
    ∀ (steps : List (String × Int)) (tbl : Table) (j : Job),
    lookup tbl id = some j →
    statusTrace tbl id (procOps steps) =
      steps.map (fun _ => some (.enum .processing)) := by
  intro steps
  induction steps with
  | nil => intro tbl j _; simp [procOps, statusTrace, jobTrace]
  | cons sp rest ih =>
      intro tbl j h
      have h1 :
          lookup (applyOp tbl id (RegOp.markProcessing sp.1 sp.2)) id =
            some (applyUpdate j
              { status := some (.enum .processing), step := some sp.1,
                progress := some sp.2, error := none, output_path := none } 0) := by
        simpa [applyOp, mark_processing] using
          (lookup_update_status_self .processing (some sp.1)
            (some sp.2) none none 0 h)
      have htail := ih _ _ h1
      simp only [procOps] at htail ⊢
      rw [List.map_cons, statusTrace_cons, h1, htail]
      simp [applyUpdate]

/-- Job trace of a block of `mark_processing` operations on a present job
that has no output path and no error: every observed record is mid-run. -/
theorem jobTrace_procOps_midRun {id : String} :
    ∀ (steps : List (String × Int)) (tbl : Table) (j : Job),
    lookup tbl id = some j → j.output_path = none → j.error = none →
    (jobTrace tbl id (procOps steps)).all (fun oj => oj.all midRunB) = true := by
  intro steps
  induction steps with
  | nil => intro tbl j _ _ _; simp [procOps, jobTrace]
  | cons sp rest ih =>
      intro tbl j h hop herr
      have h1 :
          lookup (applyOp tbl id (RegOp.markProcessing sp.1 sp.2)) id =
            some (applyUpdate j
              { status := some (.enum .processing), step := some sp.1,
                progress := some sp.2, error := none, output_path := none } 0) := by
        simpa [applyOp, mark_processing] using
          (lookup_update_status_self .processing (some sp.1)
            (some sp.2) none none 0 h)
      simp only [procOps, List.map_cons, jobTrace, h1, List.all_cons,
        Bool.and_eq_true]
      refine ⟨?_, ?_⟩
      · simp [Option.all, midRunB, applyUpdate, hop, herr]
      · exact ih _ _ h1 (by simp [applyUpdate, hop]) (by simp [applyUpdate, herr])

/-- A mid-run record satisfies the output/error field invariant. -/
theorem midRunB_jobInvB {j : Job} (h : midRunB j = true) : jobInvB j = true := by
  unfold midRunB at h
  simp only [Bool.and_eq_true, decide_eq_true_eq] at h
  obtain ⟨⟨hop, herr⟩, hst⟩ := h
  simp [jobInvB, hst, Option.isNone_iff_eq_none.mp hop,
    Option.isNone_iff_eq_none.mp herr]

theorem create_job_eq (tbl : Table) (id : String) (ty : JobType)
    (fn up : String) (now : Nat) :
    create_job tbl id ty fn up now =
      (insertEntry tbl id (newJob id ty fn up now), newJob id ty fn up now) := rfl

theorem lookup_applyOp_create (tbl : Table) (id : String) (ty : JobType)
    (fn up : String) :
    lookup (applyOp tbl id (RegOp.create ty fn up)) id =
      some (newJob id ty fn up 0) := by
  show lookup (create_job tbl id ty fn up 0).fst id = _
  rw [create_job_eq]
  exact lookup_insertEntry_self

/-- Chain helper: a run of `processing` statuses followed by one terminal
status is a path of the state machine. -/
theorem chain_processing_terminal (R : JobStatus → JobStatus → Prop)
    (hpp : R .processing .processing) :
    ∀ (steps : List (String × Int)) (ts : JobStatus), R .processing ts →
    List.Chain' R (.processing :: (steps.map (fun _ => .processing) ++ [ts])) := by
  intro steps
  induction steps with
  | nil => intro ts hts; simp [List.chain'_cons, hts]
  | cons sp rest ih =>
      intro ts hts
      simp only [List.map_cons, List.cons_append, List.chain'_cons]
      exact ⟨hpp, ih ts hts⟩

/-! ## Claim C1 -/

/-- Claim C1, counterexample.  The claim places each milestone callback after
the success of its stage (25% after stage 1, and for the audio-to-document
pipeline 75% after rendering).  In a successful concrete run the very first
event is the 25% `omr` callback, before the OMR stage is invoked, and the
75% `rendering` callback (index 2 of the AMT trace) precedes the rendering
stage invocation (index 3). -/
theorem milestone_callbacks_not_after_stage_success :
    (OMRPipeline.process "job1" (.ok "s.musicxml")
        (fun _ => .ok "s.mid") (fun _ => .ok "s.mp3")).fst[0]? =
      some (.callback "job1" (processingUpdate "omr" 25)) ∧
    (OMRPipeline.process "job1" (.ok "s.musicxml")
        (fun _ => .ok "s.mid") (fun _ => .ok "s.mp3")).fst[1]? =
      some (.stage "omr") ∧
    (AMTPipeline.process "job1" (.ok "s.mid") (fun _ => .ok "s.pdf")).fst[2]? =
      some (.callback "job1" (processingUpdate "rendering" 75)) ∧
    (AMTPipeline.process "job1" (.ok "s.mid") (fun _ => .ok "s.pdf")).fst[3]? =
      some (.stage "rendering") :=
  ⟨rfl, rfl, rfl, rfl⟩

/-- Claim C1, amended.  In every successful image/PDF-to-audio run the
orchestrator issues each milestone callback immediately before invoking the
corresponding stage — `(processing, step=omr, progress=25)` before stage 1,
`(processing, step=conversion, progress=50)` between stages 1 and 2,
`(processing, step=synthesis, progress=75)` between stages 2 and 3 — then
deletes the two intermediate artifacts and issues `(completed, progress=100)`
last; for the audio-to-document pipeline the 25% milestone precedes
transcription and the 75% milestone falls between transcription and
rendering, before the final `(completed, progress=100)`. -/
theorem successful_pipeline_event_order
    (jid mx midi : String) (conv synth render : String → String) :
    OMRPipeline.process jid (.ok mx)
        (fun x => .ok (conv x)) (fun x => .ok (synth x)) =
      ([.callback jid (processingUpdate "omr" 25), .stage "omr",
        .callback jid (processingUpdate "conversion" 50), .stage "conversion",
        .callback jid (processingUpdate "synthesis" 75), .stage "synthesis",
        .cleanup mx, .cleanup (conv mx),
        .callback jid completedUpdate], .ok (synth (conv mx))) ∧
    AMTPipeline.process jid (.ok midi) (fun x => .ok (render x)) =
      ([.callback jid (processingUpdate "transcription" 25),
        .stage "transcription",
        .callback jid (processingUpdate "rendering" 75), .stage "rendering",
        .cleanup midi,
        .callback jid completedUpdate], .ok (render midi)) :=
  ⟨rfl, rfl⟩

/-! ## Claim C2 -/

/-- Claim C2, counterexample.  The claim requires every stage processor to
fail with a typed error when its wrapped tool is unavailable; on an existing
`.mp3` input with Basic Pitch unavailable, `AMTProcessor.process_audio`
instead returns the mock MIDI artifact path as a success. -/
theorem amt_processor_returns_mock_when_tool_unavailable :
    AMTProcessor.process_audio true ".mp3" "song" .unavailable true =
      .ok "outputs/song.mid" := rfl

/-- Claim C2, amended.  The OMR processor does fail with a typed
`RuntimeError` carrying a diagnostic message when its tool is unavailable,
rejects the input (assertion or value error), or crashes, and both
processors fail on a missing input file or an unsupported extension; but the
tool-dependent failure modes of the AMT processor do not raise: when Basic
Pitch is unavailable, produces no MIDI data, or crashes, a mock MIDI
artifact path is returned as a success, and the OMR processor likewise
returns a mock MusicXML path when its tool completes without writing an
output file. -/
theorem stage_processor_error_dispatch
    (stem msg : String) (b : Bool) (pdfOut : OMRProcessor.PdfConvOutcome) :
    isErr (OMRProcessor.process_image true ".png" stem pdfOut .unavailable) = true ∧
    isErr (OMRProcessor.process_image true ".png" stem pdfOut
      (.assertionError msg)) = true ∧
    isErr (OMRProcessor.process_image true ".png" stem pdfOut
      (.valueError msg)) = true ∧
    isErr (OMRProcessor.process_image true ".png" stem pdfOut (.crash msg)) = true ∧
    OMRProcessor.process_image true ".png" stem pdfOut (.ran b) =
      .ok ("outputs/" ++ stem ++ ".musicxml") ∧
    isErr (OMRProcessor.process_image false ".png" stem pdfOut (.ran true)) = true ∧
    AMTProcessor.process_audio true ".mp3" stem .unavailable true =
      .ok ("outputs/" ++ stem ++ ".mid") ∧
    AMTProcessor.process_audio true ".mp3" stem .noMidiData true =
      .ok ("outputs/" ++ stem ++ ".mid") ∧
    AMTProcessor.process_audio true ".mp3" stem (.crash msg) true =
      .ok ("outputs/" ++ stem ++ ".mid") ∧
    isErr (AMTProcessor.process_audio false ".mp3" stem .ok true) = true ∧
    isErr (AMTProcessor.process_audio true ".txt" stem .ok true) = true := by
  refine ⟨rfl, rfl, ?_, rfl, ?_, rfl, rfl, rfl, rfl, rfl, rfl⟩
  · cases hc : (containsSub msg "max() iterable argument is empty" ||
        containsSub msg "max()") <;>
      simp [OMRProcessor.process_image, OMRProcessor.run_oemer, hc, isErr,
        omr_allowed_extensions]
  · cases b <;> rfl

/-! ## Claim C7 -/

/-- Claim C7, evaluation.  In the refactored routes the only writer of the
`processing` status is the pipeline status callback, which stores the plain
string `"processing"` in `Job.status` via `update_job`.  Downloading such a
job reaches the `job.status.value` interpolation in the 400 branch and
raises `AttributeError` — a 500 server error — instead of the claimed client
error referencing the current status.  The other scenarios behave as
claimed: download of an `uploaded` job returns a 400 whose detail cites the
status, download of a `completed` job whose artifact is gone returns a 404,
and an unknown job id returns a 404. -/
theorem download_endpoint_evaluation :
    download_omr_result
        (lookup (create_job [] "j1" .omr "tune.png" "uploads/j1.png" 0).fst "j1")
        true =
      .ok (.httpError 400 "Job is not complete. Current status: uploaded") ∧
    download_omr_result
        (lookup (update_job (create_job [] "j1" .omr "tune.png" "uploads/j1.png" 0).fst
            "j1"
            { status := some (.str "processing"), step := some "omr",
              progress := some 25, error := none, output_path := none } 1).fst
          "j1")
        true =
      .error "AttributeError: str object has no attribute value" ∧
    download_amt_result
        (lookup (update_job (create_job [] "j1" .amt "tune.mp3" "uploads/j1.mp3" 0).fst
            "j1"
            { status := some (.str "processing"), step := some "transcription",
              progress := some 25, error := none, output_path := none } 1).fst
          "j1")
        true =
      .error "AttributeError: str object has no attribute value" ∧
    download_omr_result
        (lookup (mark_completed
            (update_job (create_job [] "j1" .omr "tune.png" "uploads/j1.png" 0).fst
              "j1"
              { status := some (.str "processing"), step := some "omr",
                progress := some 25, error := none, output_path := none } 1).fst
            "j1" "outputs/j1.mp3" 2).fst
          "j1")
        false =
      .ok (.httpError 404 "Output file not found") ∧
    download_omr_result none true = .ok (.httpError 404 "Job not found") :=
  ⟨rfl, rfl, rfl, rfl, rfl⟩

/-! ## Claim C8 -/

/-- Claim C8.  The instrument selector is lowercased; when the result is not
a key of the closed `INSTRUMENTS` table the synthesizer silently falls back
to `"piano"` (General MIDI program 0), and the recognized names select their
fixed program numbers: piano 0, trumpet 56, trombone 57 (case
insensitively). -/
theorem instrument_selection (s : String) :
    (AudioSynthesizer.INSTRUMENTS.lookup (pyLower s) = none →
      AudioSynthesizer.resolve_instrument s = "piano" ∧
      AudioSynthesizer.instrument_program s = 0) ∧
    AudioSynthesizer.instrument_program "piano" = 0 ∧
    AudioSynthesizer.instrument_program "trumpet" = 56 ∧
    AudioSynthesizer.instrument_program "trombone" = 57 ∧
    AudioSynthesizer.instrument_program "Trumpet" = 56 := by
  refine ⟨?_, rfl, rfl, rfl, rfl⟩
  intro h
  have hr : AudioSynthesizer.resolve_instrument s = "piano" := by
    simp [AudioSynthesizer.resolve_instrument, h]
  refine ⟨hr, ?_⟩
  rw [AudioSynthesizer.instrument_program, hr]
  rfl

/-- Claim C8, witness: `"violin"` is not in the instrument table and resolves
to piano with program 0. -/
theorem instrument_selection_witness :
    AudioSynthesizer.INSTRUMENTS.lookup (pyLower "Violin") = none ∧
    AudioSynthesizer.resolve_instrument "Violin" = "piano" ∧
    AudioSynthesizer.instrument_program "Violin" = 0 :=
  have h : AudioSynthesizer.INSTRUMENTS.lookup (pyLower "Violin") = none := rfl
  ⟨h, ((instrument_selection "Violin").1 h).1,
    ((instrument_selection "Violin").1 h).2⟩

/-! ## Claim C9 -/

/-- Claim C9, counterexample.  The claim says `cleanup` never raises and
returns normally when deletion cannot be performed.  There is no exception
handler around `file_path.unlink()`: with the cleanup flag enabled, an
existing file, and an operating-system refusal to unlink (for example a
permission error), the `OSError` propagates out of `cleanup`. -/
theorem cleanup_raises_on_failed_unlink :
    cleanup true true false = .error "OSError: unlink failed" := rfl

/-- Claim C9, amended.  `cleanup` returns normally without deleting when the
process-wide cleanup flag is disabled or when the file does not exist, and
deletes the file exactly when the flag is enabled, the file exists and the
unlink succeeds; but an operating-system failure of the unlink itself
propagates (see the counterexample) — the method is best-effort only up to
the `exists()` pre-check. -/
theorem cleanup_flag_gating :
    (∀ e u : Bool, cleanup false e u = .ok false) ∧
    (∀ f u : Bool, cleanup f false u = .ok false) ∧
    cleanup true true true = .ok true ∧
    (∀ f e u : Bool, cleanup f e u = .ok true → f = true ∧ e = true ∧ u = true) := by
  refine ⟨fun e u => rfl, fun f u => by cases f <;> rfl, rfl, fun f e u h => ?_⟩
  cases f <;> cases e <;> cases u <;> simp_all [cleanup]

/-- Claim C9, witness: the deletion case of the amended claim at concrete
inputs. -/
theorem cleanup_flag_gating_witness :
    cleanup false true true = Except.ok false ∧
    (true = true ∧ true = true ∧ true = true) :=
  ⟨cleanup_flag_gating.1 true true,
   cleanup_flag_gating.2.2.2 true true true cleanup_flag_gating.2.2.1⟩

/-! ## Claim C10 -/

/-- Claim C10.  For a present job id, `mark_failed` rewrites exactly the
fields `status` (to `FAILED`), `error` (to the given message) and
`updated_at`; all other fields of the record and all other entries of the
table are untouched.  For an absent id it returns `None` and leaves the
table unchanged. -/
theorem mark_failed_frame (tbl : Table) (id err : String) (now : Nat) :
    (lookup tbl id = none → mark_failed tbl id err now = (tbl, none)) ∧
    (∀ j, lookup tbl id = some j →
      mark_failed tbl id err now =
        (setEntry tbl id (failedFrom j err now), some (failedFrom j err now)) ∧
      (∀ k, k ≠ id →
        lookup (mark_failed tbl id err now).fst k = lookup tbl k)) := by
  constructor
  · intro h
    simp [mark_failed, update_status, update_job, h]
  · intro j h
    have heq : mark_failed tbl id err now =
        (setEntry tbl id (failedFrom j err now), some (failedFrom j err now)) := by
      unfold mark_failed update_status
      rw [update_job_of_lookup h]
      rfl
    refine ⟨heq, fun k hk => ?_⟩
    rw [heq]
    exact lookup_setEntry_ne hk

/-- Claim C10, witness: a two-entry table; `mark_failed` on an absent id is a
no-op returning `None`, on a present id it rewrites status, error and
`updated_at` only and leaves the other entry readable unchanged. -/
theorem mark_failed_frame_witness :
    (mark_failed ((create_job [] "j1" .omr "a.png" "uploads/j1.png" 0).fst)
        "zz" "boom" 5 =
      ((create_job [] "j1" .omr "a.png" "uploads/j1.png" 0).fst, none)) ∧
    (mark_failed ((create_job [] "j1" .omr "a.png" "uploads/j1.png" 0).fst)
        "j1" "boom" 5 =
      (setEntry ((create_job [] "j1" .omr "a.png" "uploads/j1.png" 0).fst) "j1"
        (failedFrom (newJob "j1" .omr "a.png" "uploads/j1.png" 0) "boom" 5),
       some (failedFrom (newJob "j1" .omr "a.png" "uploads/j1.png" 0) "boom" 5))) ∧
    lookup (mark_failed ((create_job [] "j1" .omr "a.png" "uploads/j1.png" 0).fst)
        "j1" "boom" 5).fst "k2" =
      lookup ((create_job [] "j1" .omr "a.png" "uploads/j1.png" 0).fst) "k2" :=
  ⟨(mark_failed_frame ((create_job [] "j1" .omr "a.png" "uploads/j1.png" 0).fst)
      "zz" "boom" 5).1 rfl,
   ((mark_failed_frame ((create_job [] "j1" .omr "a.png" "uploads/j1.png" 0).fst)
      "j1" "boom" 5).2 (newJob "j1" .omr "a.png" "uploads/j1.png" 0) rfl).1,
   ((mark_failed_frame ((create_job [] "j1" .omr "a.png" "uploads/j1.png" 0).fst)
      "j1" "boom" 5).2 (newJob "j1" .omr "a.png" "uploads/j1.png" 0) rfl).2
     "k2" (by decide)⟩

/-! ## Claim C5 -/

/-- Claim C5.  The status updates issued by either pipeline while the job is
processing carry non-decreasing progress values (25, 50, 75 for the
image/PDF-to-audio pipeline, 25, 75 for the audio-to-document pipeline, with
any suffix removed on failure), every `completed` callback carries progress
exactly 100, and `mark_completed` stores progress exactly 100 with status
`COMPLETED` in the registry. -/
theorem processing_progress_monotone
    (jid : String) (s1 : Except String String)
    (s2 s3 : String → Except String String)
    (a1 : Except String String) (a2 : String → Except String String) :
    (List.Chain' (fun x y => x ≤ y)
      (processingProgresses (OMRPipeline.process jid s1 s2 s3).fst) ∧
     completedHas100 (OMRPipeline.process jid s1 s2 s3).fst = true) ∧
    (List.Chain' (fun x y => x ≤ y)
      (processingProgresses (AMTPipeline.process jid a1 a2).fst) ∧
     completedHas100 (AMTPipeline.process jid a1 a2).fst = true) ∧
    (∀ (tbl : Table) (id out : String) (now : Nat),
      ((mark_completed tbl id out now).snd.all
        (fun j => (j.progress == (100 : Int)) &&
          decide (j.status = .enum .completed))) = true) := by
  refine ⟨?_, ?_, ?_⟩
  · cases s1 with
    | error e =>
        simp [OMRPipeline.process, processingProgresses, progressOf,
          processingUpdate, failedUpdate, completedHas100]
    | ok mx =>
        cases h2 : s2 mx with
        | error e =>
            simp [OMRPipeline.process, h2, processingProgresses, progressOf,
              processingUpdate, failedUpdate, completedHas100]
        | ok midi =>
            cases h3 : s3 midi with
            | error e =>
                simp [OMRPipeline.process, h2, h3, processingProgresses,
                  progressOf, processingUpdate, failedUpdate, completedHas100]
            | ok audio =>
                simp [OMRPipeline.process, h2, h3, processingProgresses,
                  progressOf, processingUpdate, completedUpdate, completedHas100]
  · cases a1 with
    | error e =>
        simp [AMTPipeline.process, processingProgresses, progressOf,
          processingUpdate, failedUpdate, completedHas100]
    | ok midi =>
        cases h2 : a2 midi with
        | error e =>
            simp [AMTPipeline.process, h2, processingProgresses, progressOf,
              processingUpdate, failedUpdate, completedHas100]
        | ok pdf =>
            simp [AMTPipeline.process, h2, processingProgresses, progressOf,
              processingUpdate, completedUpdate, completedHas100]
  · intro tbl id out now
    unfold mark_completed update_status update_job
    cases h : lookup tbl id with
    | none => simp [h]
    | some j => simp [h, applyUpdate, Option.all]

/-! ## Claim C6 -/

/-- Claim C6.  Whenever a pipeline run re-raises a failure (its result is
`error e`), its event trace contains exactly one `failed` status callback,
that callback carries the re-raised message and is the final event of the
trace — in particular no stage is invoked after the failure. -/
theorem pipeline_failure_single_callback_and_reraise
    (jid : String) (s1 : Except String String)
    (s2 s3 : String → Except String String)
    (a1 : Except String String) (a2 : String → Except String String)
    (e : String) :
    ((OMRPipeline.process jid s1 s2 s3).snd = .error e →
      countFailed (OMRPipeline.process jid s1 s2 s3).fst = 1 ∧
      (OMRPipeline.process jid s1 s2 s3).fst.getLast? =
        some (.callback jid (failedUpdate e))) ∧
    ((AMTPipeline.process jid a1 a2).snd = .error e →
      countFailed (AMTPipeline.process jid a1 a2).fst = 1 ∧
      (AMTPipeline.process jid a1 a2).fst.getLast? =
        some (.callback jid (failedUpdate e))) := by
  constructor
  · intro h
    cases s1 with
    | error e1 =>
        simp only [OMRPipeline.process] at h ⊢
        obtain rfl : e1 = e := by simpa using h
        simp [countFailed, isFailedCallback, processingUpdate, failedUpdate]
    | ok mx =>
        cases h2 : s2 mx with
        | error e1 =>
            simp only [OMRPipeline.process, h2] at h ⊢
            obtain rfl : e1 = e := by simpa using h
            simp [countFailed, isFailedCallback, processingUpdate, failedUpdate]
        | ok midi =>
            cases h3 : s3 midi with
            | error e1 =>
                simp only [OMRPipeline.process, h2, h3] at h ⊢
                obtain rfl : e1 = e := by simpa using h
                simp [countFailed, isFailedCallback, processingUpdate,
                  failedUpdate]
            | ok audio =>
                simp [OMRPipeline.process, h2, h3] at h
  · intro h
    cases a1 with
    | error e1 =>
        simp only [AMTPipeline.process] at h ⊢
        obtain rfl : e1 = e := by simpa using h
        simp [countFailed, isFailedCallback, processingUpdate, failedUpdate]
    | ok midi =>
        cases h2 : a2 midi with
        | error e1 =>
            simp only [AMTPipeline.process, h2] at h ⊢
            obtain rfl : e1 = e := by simpa using h
            simp [countFailed, isFailedCallback, processingUpdate, failedUpdate]
        | ok pdf =>
            simp [AMTPipeline.process, h2] at h

/-- Claim C6, witness: a concrete failing run of each pipeline, with the
hypotheses of the theorem discharged by evaluation. -/
theorem pipeline_failure_single_callback_and_reraise_witness :
    (countFailed (OMRPipeline.process "j" (.error "boom")
        (fun _ => .ok "x") (fun _ => .ok "y")).fst = 1 ∧
      (OMRPipeline.process "j" (.error "boom")
        (fun _ => .ok "x") (fun _ => .ok "y")).fst.getLast? =
        some (.callback "j" (failedUpdate "boom"))) ∧
    (countFailed (AMTPipeline.process "j" (.error "boom")
        (fun _ => .ok "x")).fst = 1 ∧
      (AMTPipeline.process "j" (.error "boom")
        (fun _ => .ok "x")).fst.getLast? =
        some (.callback "j" (failedUpdate "boom"))) :=
  ⟨(pipeline_failure_single_callback_and_reraise "j" (.error "boom")
      (fun _ => .ok "x") (fun _ => .ok "y") (.error "boom")
      (fun _ => .ok "x") "boom").1 rfl,
   (pipeline_failure_single_callback_and_reraise "j" (.error "boom")
      (fun _ => .ok "x") (fun _ => .ok "y") (.error "boom")
      (fun _ => .ok "x") "boom").2 rfl⟩

/-! ## Claim C3 -/

/-- Claim C3, counterexample.  The claim states that once a job is
`completed` no later registry operation changes its status.  The registry
enforces no such guard: after `create`, `mark_completed`, a subsequent
`mark_processing` moves the job from `completed` back to `processing`. -/
theorem registry_allows_terminal_status_overwrite :
    (lookup (mark_completed
        (create_job [] "j1" .omr "a.png" "uploads/j1.png" 0).fst
        "j1" "outputs/j1.mp3" 1).fst "j1").map Job.status =
      some (.enum .completed) ∧
    (lookup (mark_processing
        (mark_completed
          (create_job [] "j1" .omr "a.png" "uploads/j1.png" 0).fst
          "j1" "outputs/j1.mp3" 1).fst
        "j1" "omr" 25 2).fst "j1").map Job.status =
      some (.enum .processing) := by
  exact ⟨rfl, rfl⟩

theorem lookup_create_self (tbl : Table) (id : String) (ty : JobType)
    (fn up : String) (now : Nat) :
    lookup (create_job tbl id ty fn up now).fst id =
      some (newJob id ty fn up now) := by
  rw [create_job_eq]
  exact lookup_insertEntry_self

/-- Each callback application keeps the job present and sets its status to
the callback's status value; hence the statuses observed after the
successive callbacks are exactly the callback statuses. -/
theorem cbStatusTrace_statuses {id : String} :
    ∀ (us : List StatusUpdate) (tbl : Table) (j : Job),
    lookup tbl id = some j →
    cbStatusTrace tbl id us = us.map (fun u => some u.status) := by
  intro us
  induction us with
  | nil => intro tbl j _; rfl
  | cons u rest ih =>
      intro tbl j h
      have h1 : lookup (applyCallback tbl id u) id =
          some (applyUpdate j
            { status := some u.status, step := u.step, progress := u.progress,
              error := u.error, output_path := none } 0) := by
        unfold applyCallback
        exact lookup_update_job_self h
      simp only [cbStatusTrace, h1, List.map_cons]
      rw [ih _ _ h1]
      simp [applyUpdate]

theorem cb_fold_lookup {id : String} :
    ∀ (us : List StatusUpdate) (tbl : Table) (j : Job),
    lookup tbl id = some j →
    ∃ j', lookup (us.foldl (fun t u => applyCallback t id u) tbl) id = some j' := by
  intro us
  induction us with
  | nil => intro tbl j h; exact ⟨j, h⟩
  | cons u rest ih =>
      intro tbl j h
      have h1 : lookup (applyCallback tbl id u) id =
          some (applyUpdate j
            { status := some u.status, step := u.step, progress := u.progress,
              error := u.error, output_path := none } 0) := by
        unfold applyCallback
        exact lookup_update_job_self h
      simpa [List.foldl_cons] using ih _ _ h1

theorem terminalMark_status {tbl : Table} {id : String} {j : Job}
    (h : lookup tbl id = some j) (r : Except String String) :
    (lookup (terminalMark tbl id r) id).map Job.status =
      some (.enum (terminalOf r)) := by
  cases r with
  | ok p =>
      have h1 := lookup_update_status_self .completed none (some 100) none
        (some p) 0 h
      simp [terminalMark, mark_completed, terminalOf, h1, applyUpdate]
  | error e =>
      have h1 := lookup_update_status_self .failed none none (some e) none 0 h
      simp [terminalMark, mark_failed, terminalOf, h1, applyUpdate]

/-- Shape of the observed status values of one orchestrated run: `uploaded`
from `create_job`, the status value of each callback, and the terminal enum
value from the final mark. -/
theorem runStatusValues_eq (tbl : Table) (id : String) (ty : JobType)
    (fn up : String) (events : List Event) (res : Except String String) :
    runStatusValues tbl id ty fn up (events, res) =
      some JobStatus.uploaded ::
        ((jobCallbackOps id events).map (fun u => StatusVal.asStatus u.status) ++
          [some (terminalOf res)]) := by
  have h0 := lookup_create_self tbl id ty fn up 0
  obtain ⟨j', hj'⟩ := cb_fold_lookup (jobCallbackOps id events) _ _ h0
  simp only [runStatusValues]
  rw [cbStatusTrace_statuses _ _ _ h0, h0, terminalMark_status hj' res]
  simp [List.map_map, Function.comp, StatusVal.asStatus, newJob]

/-- Claim C3, amended.  The registry itself does not enforce the status state
machine — `update_job`/`update_status` overwrite the status unconditionally,
so a sequence of registry operations can move a completed job back to
processing (see the counterexample).  The write sequences the orchestration
layer actually issues do respect the machine at the level of status values:
for one job the routes call `create_job` (status `uploaded`), then apply each
pipeline status callback through `update_job` — these write the plain
strings `"processing"` (one or more times) and then `"completed"` or
`"failed"` — and finally call `mark_completed` or `mark_failed`, which
writes the same terminal value again as an enum member.  For every choice of
stage outcomes the observed status values are `uploaded`, `processing` one
or more times, then the terminal value twice, and every adjacent pair is
either an edge of `uploaded -> processing -> (completed | failed)` (with the
processing self-loop) or leaves the value unchanged — so no write changes a
terminal status to another value and no job returns to `uploaded`. -/
theorem orchestrated_runs_respect_state_machine
    (tbl : Table) (id : String) (ty : JobType) (fn up : String)
    (s1 : Except String String) (s2 s3 : String → Except String String)
    (a1 : Except String String) (a2 : String → Except String String) :
    (∃ k : Nat,
      runStatusValues tbl id ty fn up (OMRPipeline.process id s1 s2 s3) =
        some JobStatus.uploaded :: some JobStatus.processing ::
          (List.replicate k (some JobStatus.processing) ++
            [some (terminalOf (OMRPipeline.process id s1 s2 s3).snd),
             some (terminalOf (OMRPipeline.process id s1 s2 s3).snd)]) ∧
      List.Chain' (fun a b => machineStep a b = true)
        (JobStatus.uploaded :: JobStatus.processing ::
          (List.replicate k JobStatus.processing ++
            [terminalOf (OMRPipeline.process id s1 s2 s3).snd,
             terminalOf (OMRPipeline.process id s1 s2 s3).snd]))) ∧
    (∃ k : Nat,
      runStatusValues tbl id ty fn up (AMTPipeline.process id a1 a2) =
        some JobStatus.uploaded :: some JobStatus.processing ::
          (List.replicate k (some JobStatus.processing) ++
            [some (terminalOf (AMTPipeline.process id a1 a2).snd),
             some (terminalOf (AMTPipeline.process id a1 a2).snd)]) ∧
      List.Chain' (fun a b => machineStep a b = true)
        (JobStatus.uploaded :: JobStatus.processing ::
          (List.replicate k JobStatus.processing ++
            [terminalOf (AMTPipeline.process id a1 a2).snd,
             terminalOf (AMTPipeline.process id a1 a2).snd]))) := by
  constructor
  · cases s1 with
    | error e =>
        have hp : OMRPipeline.process id (.error e) s2 s3 =
            ([Event.callback id (processingUpdate "omr" 25), Event.stage "omr",
              Event.callback id (failedUpdate e)], .error e) := rfl
        refine ⟨0, ?_, ?_⟩
        · rw [hp, runStatusValues_eq]
          simp [jobCallbackOps, processingUpdate, failedUpdate,
            StatusVal.asStatus, terminalOf]
        · rw [hp]
          simp [List.replicate, List.chain'_cons, machineStep, allowedTransition,
            terminalOf]; decide
    | ok mx =>
        cases h2 : s2 mx with
        | error e =>
            have hp : OMRPipeline.process id (.ok mx) s2 s3 =
                ([Event.callback id (processingUpdate "omr" 25),
                  Event.stage "omr",
                  Event.callback id (processingUpdate "conversion" 50),
                  Event.stage "conversion",
                  Event.callback id (failedUpdate e)], .error e) := by
              simp [OMRPipeline.process, h2]
            refine ⟨1, ?_, ?_⟩
            · rw [hp, runStatusValues_eq]
              simp [jobCallbackOps, processingUpdate, failedUpdate,
                StatusVal.asStatus, terminalOf]
            · rw [hp]
              simp [List.replicate, List.chain'_cons, machineStep,
                allowedTransition, terminalOf]; decide
        | ok midi =>
            cases h3 : s3 midi with
            | error e =>
                have hp : OMRPipeline.process id (.ok mx) s2 s3 =
                    ([Event.callback id (processingUpdate "omr" 25),
                      Event.stage "omr",
                      Event.callback id (processingUpdate "conversion" 50),
                      Event.stage "conversion",
                      Event.callback id (processingUpdate "synthesis" 75),
                      Event.stage "synthesis",
                      Event.callback id (failedUpdate e)], .error e) := by
                  simp [OMRPipeline.process, h2, h3]
                refine ⟨2, ?_, ?_⟩
                · rw [hp, runStatusValues_eq]
                  simp [jobCallbackOps, processingUpdate, failedUpdate,
                    StatusVal.asStatus, terminalOf]
                · rw [hp]
                  simp [List.replicate, List.chain'_cons, machineStep,
                    allowedTransition, terminalOf]; decide
            | ok audio =>
                have hp : OMRPipeline.process id (.ok mx) s2 s3 =
                    ([Event.callback id (processingUpdate "omr" 25),
                      Event.stage "omr",
                      Event.callback id (processingUpdate "conversion" 50),
                      Event.stage "conversion",
                      Event.callback id (processingUpdate "synthesis" 75),
                      Event.stage "synthesis",
                      Event.cleanup mx, Event.cleanup midi,
                      Event.callback id completedUpdate], .ok audio) := by
                  simp [OMRPipeline.process, h2, h3]
                refine ⟨2, ?_, ?_⟩
                · rw [hp, runStatusValues_eq]
                  simp [jobCallbackOps, processingUpdate, completedUpdate,
                    StatusVal.asStatus, terminalOf]
                · rw [hp]
                  simp [List.replicate, List.chain'_cons, machineStep,
                    allowedTransition, terminalOf]; decide
  · cases a1 with
    | error e =>
        have hp : AMTPipeline.process id (.error e) a2 =
            ([Event.callback id (processingUpdate "transcription" 25),
              Event.stage "transcription",
              Event.callback id (failedUpdate e)], .error e) := rfl
        refine ⟨0, ?_, ?_⟩
        · rw [hp, runStatusValues_eq]
          simp [jobCallbackOps, processingUpdate, failedUpdate,
            StatusVal.asStatus, terminalOf]
        · rw [hp]
          simp [List.replicate, List.chain'_cons, machineStep, allowedTransition,
            terminalOf]; decide
    | ok midi =>
        cases h2 : a2 midi with
        | error e =>
            have hp : AMTPipeline.process id (.ok midi) a2 =
                ([Event.callback id (processingUpdate "transcription" 25),
                  Event.stage "transcription",
                  Event.callback id (processingUpdate "rendering" 75),
                  Event.stage "rendering",
                  Event.callback id (failedUpdate e)], .error e) := by
              simp [AMTPipeline.process, h2]
            refine ⟨1, ?_, ?_⟩
            · rw [hp, runStatusValues_eq]
              simp [jobCallbackOps, processingUpdate, failedUpdate,
                StatusVal.asStatus, terminalOf]
            · rw [hp]
              simp [List.replicate, List.chain'_cons, machineStep,
                allowedTransition, terminalOf]; decide
        | ok pdf =>
            have hp : AMTPipeline.process id (.ok midi) a2 =
                ([Event.callback id (processingUpdate "transcription" 25),
                  Event.stage "transcription",
                  Event.callback id (processingUpdate "rendering" 75),
                  Event.stage "rendering",
                  Event.cleanup midi,
                  Event.callback id completedUpdate], .ok pdf) := by
              simp [AMTPipeline.process, h2]
            refine ⟨1, ?_, ?_⟩
            · rw [hp, runStatusValues_eq]
              simp [jobCallbackOps, processingUpdate, completedUpdate,
                StatusVal.asStatus, terminalOf]
            · rw [hp]
              simp [List.replicate, List.chain'_cons, machineStep,
                allowedTransition, terminalOf]; decide

/-! ## Claim C4 -/

/-- Option lifting of `midRunB_jobInvB`. -/
theorem all_midRunB_all_jobInvB {oj : Option Job}
    (h : oj.all midRunB = true) : oj.all jobInvB = true := by
  cases oj with
  | none => rfl
  | some j => exact midRunB_jobInvB h

/-- Claim C4, counterexample.  The claim quantifies over every record
reachable by the registry operations; after `create`, `mark_failed`,
`mark_completed` the job has `status == completed` while `error` is still
set (`mark_completed` never clears `error`), so "`error` is not `None` iff
`status == failed`" fails. -/
theorem registry_field_invariant_violation :
    (lookup (mark_completed
        (mark_failed (create_job [] "j1" .omr "a.png" "uploads/j1.png" 0).fst
          "j1" "boom" 1).fst
        "j1" "outputs/j1.mp3" 2).fst "j1").map Job.status =
      some (.enum .completed) ∧
    (lookup (mark_completed
        (mark_failed (create_job [] "j1" .omr "a.png" "uploads/j1.png" 0).fst
          "j1" "boom" 1).fst
        "j1" "outputs/j1.mp3" 2).fst "j1").map Job.error =
      some (some "boom") ∧
    (lookup (mark_completed
        (mark_failed (create_job [] "j1" .omr "a.png" "uploads/j1.png" 0).fst
          "j1" "boom" 1).fst
        "j1" "outputs/j1.mp3" 2).fst "j1").all jobInvB = false := by
  exact ⟨rfl, rfl, rfl⟩

/-- Claim C4, amended.  The registry does not maintain the invariant under
arbitrary operation sequences (`mark_completed` after `mark_failed` leaves a
completed job with `error` set, see the counterexample).  For every job
record observed during a lifecycle-shaped sequence — `create`, then any
number of `mark_processing`, then exactly one of `mark_completed` /
`mark_failed` — the invariant holds: `output_path` is set iff the status is
`completed`, and `error` is set iff the status is `failed`. -/
theorem lifecycle_sequences_field_invariant
    (tbl : Table) (id : String) (ty : JobType) (fn up : String)
    (steps : List (String × Int)) (failTerm : Bool) (out err : String) :
    ((jobTrace tbl id
        (RegOp.create ty fn up ::
          (procOps steps ++ [termOp failTerm out err]))).all
      (fun oj => oj.all jobInvB)) = true := by
  have h0 := lookup_applyOp_create tbl id ty fn up
  simp only [jobTrace, List.all_cons, Bool.and_eq_true]
  refine ⟨?_, ?_⟩
  · rw [h0]
    simp [Option.all, jobInvB, newJob]
  · rw [jobTrace_append, List.all_append, Bool.and_eq_true]
    obtain ⟨j', hj', hop, herr, _⟩ := runOps_procOps_lookup steps _ _ h0
    rw [show (newJob id ty fn up 0).output_path = none from rfl] at hop
    rw [show (newJob id ty fn up 0).error = none from rfl] at herr
    refine ⟨?_, ?_⟩
    · have hmid := jobTrace_procOps_midRun steps _ _ h0 rfl rfl
      rw [List.all_eq_true] at hmid ⊢
      intro oj hoj
      exact all_midRunB_all_jobInvB (hmid oj hoj)
    · cases failTerm
      · have h2 :
            lookup (applyOp (runOps (applyOp tbl id (RegOp.create ty fn up)) id
                (procOps steps)) id (RegOp.markCompleted out)) id =
              some (applyUpdate j'
                { status := some (.enum .completed), step := none,
                  progress := some 100, error := none,
                  output_path := some out } 0) := by
          simpa [applyOp, mark_completed] using
            (lookup_update_status_self .completed none
              (some 100) none (some out) 0 hj')
        rw [show termOp false out err = RegOp.markCompleted out from rfl]
        simp only [jobTrace, h2, List.all_cons]
        simp [Option.all, jobInvB, applyUpdate, herr]
      · have h2 :
            lookup (applyOp (runOps (applyOp tbl id (RegOp.create ty fn up)) id
                (procOps steps)) id (RegOp.markFailed err)) id =
              some (applyUpdate j'
                { status := some (.enum .failed), step := none,
                  progress := none, error := some err,
                  output_path := none } 0) := by
          simpa [applyOp, mark_failed] using
            (lookup_update_status_self .failed none
              none (some err) none 0 hj')
        rw [show termOp true out err = RegOp.markFailed err from rfl]
        simp only [jobTrace, h2, List.all_cons]
        simp [Option.all, jobInvB, applyUpdate, hop]

end BandMusic
